import Mathlib

/-!
Shallow embedding of `src/WebSocketServer.ts` (BOLL7708/DenoUtils).

The session registry `#sessions : IWebSocketSessions` is a JS object mapping
session-id strings to `{socket, subprotocols}` records.  We embed it as an
association list with unique keys; `Object.keys` enumerates keys in insertion
order, which the association-list order models.  A socket is represented by
its `readyState` number (the only attribute the embedded operations consult);
`socket.send` / `socket.close` are effects outside the registry, so "a send
happened to id" is embedded as "`sendMessage` returned true for id".
-/

namespace WSServer

/-- One registry entry: the socket's live `readyState` and the negotiated
sub-protocol list captured at upgrade time. -/
structure Session where
  readyState : Nat
  subprotocols : List String
  deriving Repr, DecidableEq

/-- The `#sessions` object: session-id keys to session records, in insertion
order. -/
abbrev Registry := List (String × Session)

/-- `this.#sessions[sessionId]` — JS property lookup, `undefined` when the key
is absent. -/
def lookup (r : Registry) (id : String) : Option Session :=
  (r.find? (fun p => p.1 = id)).map (fun p => p.2)

/-- `delete this.#sessions[sessionId]` — removes the entry if present. -/
def removeSession (r : Registry) (id : String) : Registry :=
  r.filter (fun p => p.1 ≠ id)

/-- The keys of the registry, in insertion order (`Object.keys`). -/
def keys (r : Registry) : List String := r.map (fun p => p.1)

/-- `#unreadyStates = [WebSocket.CONNECTING, WebSocket.CLOSING, WebSocket.CLOSED]`
(numeric constants 0, 2, 3; OPEN is 1). -/
def unreadyStates : List Nat := [0, 2, 3]

/-- A sub-protocol filter `TWebSocketServerSessionSubprotocols`:
`(string | undefined)[]`, with `undefined` as `none`. -/
abbrev Filter := List (Option String)

/-- The `checkSubprotocols` closure inside `sendMessage`:
`undefined` filter matches; otherwise for each index `i < filter.length`,
`matchValue = filter[i]`, `sessionValue = session.subprotocols[i]` (which is
`undefined` out of range), and a defined `matchValue` differing from
`sessionValue` fails the match. -/
def checkSubprotocols (sessionSubs : List String) : Option Filter → Bool
  | none => true
  | some f =>
    (List.range f.length).all (fun i =>
      (f.getD i none).all (fun v => decide (sessionSubs[i]? = some v)))

/-- `sendMessage(message, toSessionId, withSubprotocols?)`: true iff the
session exists, its socket is not in an unready state, and the filter
matches; the message text itself does not influence the result. -/
def sendMessage (r : Registry) (_message : String) (toSessionId : String)
    (withSubprotocols : Option Filter) : Bool :=
  match lookup r toSessionId with
  | none => false
  | some session =>
    decide (session.readyState ∉ unreadyStates)
      && checkSubprotocols session.subprotocols withSubprotocols

/-- `sendMessageToAll(message, subprotocols?)`: loops over `Object.keys`,
incrementing `sent` for each successful `sendMessage`. -/
def sendMessageToAll (r : Registry) (message : String)
    (subprotocols : Option Filter) : Nat :=
  (keys r).foldl
    (fun sent id => if sendMessage r message id subprotocols then sent + 1 else sent) 0

/-- `sendMessageToOthers(message, mySessionId, subprotocols?)`: same loop but
skipping `mySessionId`. -/
def sendMessageToOthers (r : Registry) (message : String) (mySessionId : String)
    (subprotocols : Option Filter) : Nat :=
  (keys r).foldl
    (fun sent id =>
      if id ≠ mySessionId then
        if sendMessage r message id subprotocols then sent + 1 else sent
      else sent) 0

/-- The session ids to which `sendMessageToOthers` actually writes: the keys
it visits, minus the excluded one, for which `sendMessage` succeeds. -/
def othersTargets (r : Registry) (message : String) (mySessionId : String)
    (subprotocols : Option Filter) : List String :=
  (keys r).filter
    (fun id => decide (id ≠ mySessionId) && sendMessage r message id subprotocols)

/-- `disconnectSession(sessionId, code?, reason?)`.  The code reads
`this.#sessions[sessionId]` and then unconditionally dereferences
`session.socket`: when the id is unknown, `session` is `undefined` and the
property read throws a `TypeError`; when it is known, the `socket` field is
always a (truthy) WebSocket object, so the socket is closed, the entry
deleted and `true` returned — the trailing `return false` is unreachable. -/
def disconnectSession (r : Registry) (sessionId : String) : Except String (Registry × Bool) :=
  match lookup r sessionId with
  | none => .error "TypeError: cannot read properties of undefined (reading socket)"
  | some _ => .ok (removeSession r sessionId, true)

/-! ### The upgrade handler (lines 41–116)

The handler reads two headers, parses the sub-protocol list, answers 501 for
a non-websocket upgrade header, attempts `Deno.upgradeWebSocket` inside a
`try` (answering 500 if it throws), and otherwise returns the upgrade
response with `subprotocols[0]` offered as the accepted protocol.  Whether
the platform upgrade call throws is environment-determined, so the request
model carries it as a boolean.  The handler itself never touches
`#sessions` (all registry mutation lives in the socket callbacks), which the
embedding shows by threading the registry through unchanged. -/

/-- An inbound request, reduced to the data the handler consults. -/
structure Request where
  secWebsocketProtocol : Option String
  upgradeHeader : Option String
  upgradeThrows : Bool
  deriving Repr, DecidableEq

/-- What the handler returns: a plain status response, or the upgrade
response where `protocol` is the sub-protocol offered to
`Deno.upgradeWebSocket` and `subprotocols` the parsed list captured for the
future session. -/
inductive HandlerResult where
  | response (status : Nat)
  | upgraded (protocol : Option String) (subprotocols : List String)
  deriving Repr, DecidableEq

/-- Lines 42–46: `(header ?? '').split(',').map(trim).filter(length)`. -/
def parseSubprotocols (header : Option String) : List String :=
  (((header.getD "").splitOn ",").map String.trim).filter (fun s => s.length ≠ 0)

/-- The `handler` closure (lines 41–116), with the registry threaded through
to make "no state change" expressible. -/
def handler (r : Registry) (req : Request) : Registry × HandlerResult :=
  let subprotocols := parseSubprotocols req.secWebsocketProtocol
  if req.upgradeHeader ≠ some "websocket" then
    (r, .response 501)
  else if req.upgradeThrows then
    (r, .response 500)
  else
    (r, .upgraded subprotocols.head? subprotocols)

/-! ### Listener lifecycle (lines 30, 118–145)

State: the `#shouldShutDown` flag and whether a listener is currently
established.  Events: observing `#server.finished` (lines 118–124), an
explicit `shutdown()` (139–145), an explicit `restart()` (131–137).
Emitted events are the `onServerEvent` calls the code makes on each path;
`restart()` invoked from the finished-handler inlines lines 131–137. -/

/-- Lifecycle state: `#shouldShutDown` plus whether the listener is up. -/
structure LifecycleState where
  shouldShutDown : Bool
  running : Bool
  deriving Repr, DecidableEq

/-- External stimuli to the lifecycle machine. -/
inductive LcEvent where
  | finished
  | shutdownCmd
  | restartCmd
  deriving Repr, DecidableEq

/-- The `onServerEvent` notifications the lifecycle paths emit. -/
inductive LcEmit where
  | errorUnexpected
  | serverStarted
  | serverShutdown
  deriving Repr, DecidableEq

/-- One lifecycle step: the new state and the emitted events, in order.
`finished` with `#shouldShutDown` false emits the unexpected-termination
error and, when `keepAlive` is set, runs `restart()` (clear the flag,
rebuild the listener, emit `ServerStarted`); `shutdown()` sets the flag
before teardown; `restart()` clears it before rebuilding. -/
def lcStep (keepAlive : Bool) (s : LifecycleState) : LcEvent → LifecycleState × List LcEmit
  | .finished =>
    if s.shouldShutDown then ({ s with running := false }, [])
    else if keepAlive then
      (⟨false, true⟩, [.errorUnexpected, .serverStarted])
    else ({ s with running := false }, [.errorUnexpected])
  | .shutdownCmd => (⟨true, false⟩, [.serverShutdown])
  | .restartCmd => (⟨false, true⟩, [.serverStarted])

/-! ### Session-id minting (lines 62–88)

`socket.onopen` mints `sessionId = crypto.randomUUID()` and inserts the
session; `socket.onclose` (and `disconnectSession`) delete it.  The
platform's UUID source is embedded as a stream `uuid : Nat → String`
together with a counter of how many identifiers have been drawn; the
idealisation of a 128-bit random UUID source is that the stream is
injective.  A trace records the interleaving of opens and closes across
connections. -/

/-- Whole-registry state for the open/close trace model. -/
structure ServerState where
  sessions : Registry
  issued : List String
  drawn : Nat
  deriving Repr, DecidableEq

/-- A connection-level event: a socket's `onopen` firing (with the
subprotocols and initial ready state its closure captured), or the removal
of an entry — a socket's `onclose` firing for the session id it minted, or
an explicit `disconnectSession` that found its session. -/
inductive TraceEvent where
  | openConn (readyState : Nat) (subs : List String)
  | closeConn (id : String)
  deriving Repr, DecidableEq

/-- The fresh start: empty registry, nothing issued. -/
def initialState : ServerState := ⟨[], [], 0⟩

/-- How a registry insert behaves on a JS object: an existing key keeps its
position and gets the new value, a new key is appended. -/
def insertSession (r : Registry) (id : String) (s : Session) : Registry :=
  if (lookup r id).isSome then
    r.map (fun p => if p.1 = id then (id, s) else p)
  else r ++ [(id, s)]

/-- One trace step.  `openConn` runs the `onopen` body: draw the next UUID,
record it, insert the session.  `closeConn` runs the `onclose` body:
`delete this.#sessions[sessionId]`. -/
def traceStep (uuid : Nat → String) (st : ServerState) : TraceEvent → ServerState
  | .openConn ready subs =>
    let id := uuid st.drawn
    ⟨insertSession st.sessions id ⟨ready, subs⟩, st.issued ++ [id], st.drawn + 1⟩
  | .closeConn id => ⟨removeSession st.sessions id, st.issued, st.drawn⟩

/-- Run a trace from a state. -/
def runTrace (uuid : Nat → String) (st : ServerState) : List TraceEvent → ServerState
  | [] => st
  | e :: es => runTrace uuid (traceStep uuid st e) es

/-! ### Helper lemmas -/

/-- The per-index reading of the filter loop: the match succeeds exactly when
every defined filter entry agrees with the session's sub-protocol list at the
same index. -/
theorem checkSubprotocols_eq_true_iff (p : List String) (f : Filter) :
    checkSubprotocols p (some f) = true ↔
      ∀ (i : Nat) (v : String), f[i]? = some (some v) → p[i]? = some v := by
  unfold checkSubprotocols
  simp only [List.all_eq_true, List.mem_range]
  constructor
  · intro h i v hi
    have hlen : i < f.length := by
      by_contra hc
      rw [List.getElem?_eq_none (Nat.le_of_not_lt hc)] at hi
      exact Option.noConfusion hi
    have h2 := h i hlen
    rw [List.getD_eq_getElem?_getD, hi] at h2
    simpa using h2
  · intro h i hlen
    rw [List.getD_eq_getElem?_getD]
    cases hD : f[i]? with
    | none => simp
    | some ov =>
      cases ov with
      | none => simp
      | some v => simpa using h i v hD

/-- Counting loop of the broadcast operations: a fold that increments on a
predicate computes the length of the corresponding filter. -/
theorem foldl_count (g : String → Bool) (l : List String) (n : Nat) :
    l.foldl (fun sent id => if g id then sent + 1 else sent) n
      = n + (l.filter g).length := by
  induction l generalizing n with
  | nil => simp
  | cons a t ih =>
    simp only [List.foldl_cons, List.filter_cons]
    cases hg : g a
    · simpa using ih n
    · simp only [if_pos trivial]
      rw [ih (n + 1)]
      simp [Nat.add_assoc, Nat.add_comm 1]

/-- Counting loop with a skip guard, as in `sendMessageToOthers`. -/
theorem foldl_skip_count (gskip gsend : String → Bool) (l : List String) (n : Nat) :
    l.foldl (fun sent id =>
        if gskip id then (if gsend id then sent + 1 else sent) else sent) n
      = n + (l.filter (fun id => gskip id && gsend id)).length := by
  induction l generalizing n with
  | nil => simp
  | cons a t ih =>
    simp only [List.foldl_cons, List.filter_cons]
    cases hskip : gskip a
    · simpa using ih n
    · cases hsend : gsend a
      · simpa using ih n
      · simp only [Bool.and_self, if_pos trivial]
        rw [ih (n + 1)]
        simp [Nat.add_assoc, Nat.add_comm 1]

/-- Unfolding lemma: keys of a non-empty registry. -/
theorem keys_cons (p : String × Session) (t : Registry) : keys (p :: t) = p.1 :: keys t := rfl

/-- Unfolding lemma: lookup on a non-empty registry. -/
theorem lookup_cons (p : String × Session) (t : Registry) (id : String) :
    lookup (p :: t) id = if p.1 = id then some p.2 else lookup t id := by
  simp only [lookup, List.find?]
  by_cases h : p.1 = id
  · rw [show (p.1 = id : Bool) = true by simpa using h]
    simp [h]
  · rw [show (p.1 = id : Bool) = false by simpa using h]
    simp [h]

/-- A key is found by `lookup` exactly when it occurs among the keys. -/
theorem lookup_eq_none_iff (r : Registry) (id : String) :
    lookup r id = none ↔ id ∉ keys r := by
  induction r with
  | nil => simp [lookup, keys]
  | cons p t ih =>
    rw [lookup_cons, keys_cons]
    by_cases h : p.1 = id
    · simp [h]
    · rw [if_neg h, ih]
      simp only [List.mem_cons, not_or]
      constructor
      · intro hni
        exact ⟨fun hc => h hc.symm, hni⟩
      · intro hni
        exact hni.2

/-- Removing one key leaves lookups of every other key unchanged. -/
theorem lookup_removeSession (r : Registry) (myId id : String) (h : id ≠ myId) :
    lookup (removeSession r myId) id = lookup r id := by
  induction r with
  | nil => rfl
  | cons p t ih =>
    simp only [removeSession, List.filter_cons] at *
    by_cases hm : p.1 = myId
    · rw [show (decide ¬(p.1 = myId)) = false by simp [hm]]
      rw [lookup_cons, if_neg (show ¬ p.1 = id from by rw [hm]; exact fun hc => h hc.symm)]
      simpa using ih
    · rw [show (decide ¬(p.1 = myId)) = true by simp [hm]]
      simp only [if_true]
      rw [lookup_cons, lookup_cons]
      by_cases hp : p.1 = id
      · simp [hp]
      · rw [if_neg hp, if_neg hp]
        simpa using ih

/-- The keys of the registry after a removal. -/
theorem keys_removeSession (r : Registry) (myId : String) :
    keys (removeSession r myId) = (keys r).filter (fun id => id ≠ myId) := by
  simp only [keys, removeSession, List.filter_map]
  rfl

/-! ### Claim theorems -/

/-- Additional helper: `sendMessage` ignores a removed entry when addressing a
different id. -/
theorem sendMessage_removeSession (r : Registry) (msg myId id : String)
    (f : Option Filter) (h : id ≠ myId) :
    sendMessage (removeSession r myId) msg id f = sendMessage r msg id f := by
  unfold sendMessage
  rw [lookup_removeSession r myId id h]

/-- C1: the spec (and the function's own doc comment) promise that
`disconnectSession` never throws and returns `false` for an unknown id.  The
code instead dereferences `session.socket` on an `undefined` lookup result:
a first disconnect of a live session removes it and returns `true`, but a
repeat call — or any call with an unknown identifier — throws a `TypeError`
instead of returning `false`. -/
theorem disconnectSession_unknown_throws :
    disconnectSession ([("S2", ⟨1, ["chatv1", "v2"]⟩)] : Registry) "S2"
      = .ok ([], true) ∧
    disconnectSession ([] : Registry) "S2"
      = .error "TypeError: cannot read properties of undefined (reading socket)" ∧
    ∀ b : Bool, disconnectSession ([] : Registry) "S2" ≠ .ok ([], b) := by
  refine ⟨rfl, rfl, ?_⟩
  intro b h
  exact Except.noConfusion h

/-- C2: with a filter no longer than the session's negotiated list, the match
succeeds iff every defined filter position equals the same position of the
list; an absent filter matches everything, and `[A, _]` matches `[A, B]` and
`[A, C]` but not `[X, B]`. -/
theorem checkSubprotocols_filter_spec (p : List String) (f : Filter)
    (hlen : f.length ≤ p.length) :
    (checkSubprotocols p (some f) = true ↔
      ∀ (i : Nat) (v : String), f[i]? = some (some v) → p[i]? = some v) ∧
    checkSubprotocols p none = true ∧
    checkSubprotocols ["A", "B"] (some [some "A", none]) = true ∧
    checkSubprotocols ["A", "C"] (some [some "A", none]) = true ∧
    checkSubprotocols ["X", "B"] (some [some "A", none]) = false :=
  ⟨checkSubprotocols_eq_true_iff p f, rfl, by decide, by decide, by decide⟩

/-- C2 witness at `p = [A, B]`, `f = [A, _]`. -/
theorem checkSubprotocols_filter_spec_witness :
    checkSubprotocols ["A", "B"] (some [some "A", none]) = true :=
  (checkSubprotocols_filter_spec ["A", "B"] [some "A", none] (by decide)).2.2.1

/-- C10: a filter longer than the negotiated list is still a total match:
each overlong position reads the list out of range (`undefined`), so a
defined filter entry at such a position forces the whole match to fail,
while trailing `undefined` entries never change the outcome. -/
theorem checkSubprotocols_overlong_filter (p : List String) (f : Filter) :
    (∀ (i : Nat) (v : String), p.length ≤ i → f[i]? = some (some v) →
      checkSubprotocols p (some f) = false) ∧
    (∀ k : Nat, checkSubprotocols p (some (f ++ List.replicate k none))
      = checkSubprotocols p (some f)) := by
  constructor
  · intro i v hle hf
    cases hc : checkSubprotocols p (some f) with
    | false => rfl
    | true =>
      have hp := (checkSubprotocols_eq_true_iff p f).mp hc i v hf
      rw [List.getElem?_eq_none hle] at hp
      exact Option.noConfusion hp
  · intro k
    rw [Bool.eq_iff_iff, checkSubprotocols_eq_true_iff, checkSubprotocols_eq_true_iff]
    constructor
    · intro h i v hf
      have hlen : i < f.length := by
        by_contra hc
        rw [List.getElem?_eq_none (Nat.le_of_not_lt hc)] at hf
        exact Option.noConfusion hf
      refine h i v ?_
      rw [List.getElem?_append_left hlen]
      exact hf
    · intro h i v hf
      by_cases hlen : i < f.length
      · rw [List.getElem?_append_left hlen] at hf
        exact h i v hf
      · rw [List.getElem?_append_right (Nat.le_of_not_lt hlen)] at hf
        rw [List.getElem?_replicate] at hf
        by_cases hk : i - f.length < k
        · rw [if_pos hk] at hf
          exact Option.noConfusion (Option.some.inj hf)
        · rw [if_neg hk] at hf
          exact Option.noConfusion hf

/-- C10 witness: a defined entry past the end of `[A]` fails the match, and
trailing don't-care entries are neutral. -/
theorem checkSubprotocols_overlong_filter_witness :
    checkSubprotocols ["A"] (some [some "A", some "B"]) = false ∧
    checkSubprotocols ["A"] (some ([some "A"] ++ List.replicate 2 none))
      = checkSubprotocols ["A"] (some [some "A"]) :=
  ⟨(checkSubprotocols_overlong_filter ["A"] [some "A", some "B"]).1 1 "B"
      (by decide) (by decide),
   (checkSubprotocols_overlong_filter ["A"] [some "A"]).2 2⟩

/-- C4: `sendMessage` returns `false` for an absent id, and for a present id
returns `true` exactly when the socket is not connecting/closing/closed and
the sub-protocol filter matches; being a total function it raises no
exception. -/
theorem sendMessage_spec (r : Registry) (msg id : String) (f : Option Filter) :
    (lookup r id = none → sendMessage r msg id f = false) ∧
    (∀ s : Session, lookup r id = some s →
      (sendMessage r msg id f = true ↔
        (s.readyState ∉ unreadyStates ∧
          checkSubprotocols s.subprotocols f = true))) := by
  constructor
  · intro h
    unfold sendMessage
    rw [h]
  · intro s h
    unfold sendMessage
    rw [h]
    simp

/-- C4 witness: an absent id is refused; a present, open, filterless session
is served. -/
theorem sendMessage_spec_witness :
    sendMessage [] "m" "S1" none = false ∧
    (sendMessage [("S1", ⟨1, []⟩)] "m" "S1" none = true ↔
      ((⟨1, []⟩ : Session).readyState ∉ unreadyStates ∧
        checkSubprotocols (⟨1, []⟩ : Session).subprotocols none = true)) :=
  ⟨(sendMessage_spec [] "m" "S1" none).1 rfl,
   (sendMessage_spec [("S1", ⟨1, []⟩)] "m" "S1" none).2 ⟨1, []⟩ rfl⟩

/-- C5: the broadcast count equals the number of current registry keys for
which `sendMessage` succeeds; in the three-session scenario with sessions
negotiated as `["chatv1"]`, `["chatv1","v2"]` and `[]`, all open, the filter
`["chatv1"]` reaches exactly the first two. -/
theorem sendMessageToAll_spec (r : Registry) (msg : String) (f : Option Filter) :
    sendMessageToAll r msg f
      = ((keys r).filter (fun id => sendMessage r msg id f)).length ∧
    sendMessageToAll
      [("S1", ⟨1, ["chatv1"]⟩), ("S2", ⟨1, ["chatv1", "v2"]⟩), ("S3", ⟨1, []⟩)]
      "hello" (some [some "chatv1"]) = 2 ∧
    (keys [("S1", ⟨1, ["chatv1"]⟩), ("S2", ⟨1, ["chatv1", "v2"]⟩), ("S3", ⟨1, []⟩)]).filter
      (fun id => sendMessage
        [("S1", ⟨1, ["chatv1"]⟩), ("S2", ⟨1, ["chatv1", "v2"]⟩), ("S3", ⟨1, []⟩)]
        "hello" id (some [some "chatv1"]))
      = ["S1", "S2"] := by
  refine ⟨?_, by decide, by decide⟩
  unfold sendMessageToAll
  simpa using foldl_count (fun id => sendMessage r msg id f) (keys r) 0

/-- C6: `sendMessageToOthers` never writes to the excluded id — its target
set omits it by construction — and its count agrees with running
`sendMessageToAll` on the registry with that entry removed. -/
theorem sendMessageToOthers_spec (r : Registry) (msg myId : String) (f : Option Filter) :
    myId ∉ othersTargets r msg myId f ∧
    sendMessageToOthers r msg myId f = (othersTargets r msg myId f).length ∧
    sendMessageToOthers r msg myId f = sendMessageToAll (removeSession r myId) msg f := by
  have hcount : sendMessageToOthers r msg myId f = (othersTargets r msg myId f).length := by
    unfold sendMessageToOthers othersTargets
    simpa using
      foldl_skip_count (fun id => id ≠ myId) (fun id => sendMessage r msg id f) (keys r) 0
  refine ⟨?_, hcount, ?_⟩
  · simp [othersTargets, List.mem_filter]
  · rw [hcount]
    have h2 : sendMessageToAll (removeSession r myId) msg f
        = ((keys (removeSession r myId)).filter
            (fun id => sendMessage (removeSession r myId) msg id f)).length := by
      unfold sendMessageToAll
      simpa using
        foldl_count (fun id => sendMessage (removeSession r myId) msg id f)
          (keys (removeSession r myId)) 0
    rw [h2, keys_removeSession, List.filter_filter]
    congr 1
    apply List.filter_congr
    intro id _
    by_cases hid : id = myId
    · subst hid
      simp
    · rw [sendMessage_removeSession r msg myId id f hid, Bool.and_comm]

/-- C5 witness: the three-session scenario count. -/
theorem sendMessageToAll_spec_witness :
    sendMessageToAll
      [("S1", ⟨1, ["chatv1"]⟩), ("S2", ⟨1, ["chatv1", "v2"]⟩), ("S3", ⟨1, []⟩)]
      "hello" (some [some "chatv1"]) = 2 :=
  (sendMessageToAll_spec
    [("S1", ⟨1, ["chatv1"]⟩), ("S2", ⟨1, ["chatv1", "v2"]⟩), ("S3", ⟨1, []⟩)]
    "hello" (some [some "chatv1"])).2.1

/-- C6 witness: the excluded id is not a target even while present, open and
matching. -/
theorem sendMessageToOthers_spec_witness :
    "S1" ∉ othersTargets [("S1", ⟨1, ["chatv1"]⟩), ("S2", ⟨1, ["chatv1"]⟩)]
      "hello" "S1" (some [some "chatv1"]) :=
  (sendMessageToOthers_spec [("S1", ⟨1, ["chatv1"]⟩), ("S2", ⟨1, ["chatv1"]⟩)]
    "hello" "S1" (some [some "chatv1"])).1

/-- C7: a request whose upgrade header is not `websocket` gets status 501
with the registry untouched; a throwing protocol upgrade gets status 500
with the registry untouched; both paths return a response instead of
propagating an exception. -/
theorem handler_error_responses (r : Registry) (req : Request) :
    (req.upgradeHeader ≠ some "websocket" →
      handler r req = (r, .response 501)) ∧
    (req.upgradeHeader = some "websocket" → req.upgradeThrows = true →
      handler r req = (r, .response 500)) := by
  constructor
  · intro h
    simp [handler, h]
  · intro h ht
    simp [handler, h, ht]

/-- C7 witness: a plain request is answered 501, a throwing upgrade 500. -/
theorem handler_error_responses_witness :
    handler [] ⟨none, none, false⟩ = ([], .response 501) ∧
    handler [] ⟨none, some "websocket", true⟩ = ([], .response 500) :=
  ⟨(handler_error_responses [] ⟨none, none, false⟩).1 (by simp),
   (handler_error_responses [] ⟨none, some "websocket", true⟩).2 rfl rfl⟩

/-- C8: the requested sub-protocol list is the negotiation header split on
commas, tokens trimmed, empty tokens dropped and order preserved (a sublist
of the trimmed tokens, all non-empty), and a successful upgrade offers
exactly the head of that list — `none` when it is empty. -/
theorem handler_subprotocol_negotiation (r : Registry) (req : Request) (h : String)
    (hh : req.secWebsocketProtocol = some h) :
    parseSubprotocols req.secWebsocketProtocol
      = ((h.splitOn ",").map String.trim).filter (fun t => t ≠ "") ∧
    (parseSubprotocols req.secWebsocketProtocol).Sublist
      ((h.splitOn ",").map String.trim) ∧
    (∀ t ∈ parseSubprotocols req.secWebsocketProtocol, t ≠ "") ∧
    (req.upgradeHeader = some "websocket" → req.upgradeThrows = false →
      handler r req
        = (r, .upgraded (parseSubprotocols req.secWebsocketProtocol).head?
              (parseSubprotocols req.secWebsocketProtocol))) := by
  have hlen0 : ∀ s : String, s.length = 0 ↔ s = "" := by
    intro s
    constructor
    · intro hz
      cases s with
      | mk data =>
        cases data with
        | nil => rfl
        | cons a t => simp [String.length] at hz
    · intro hz
      rw [hz]
      rfl
  have hparse : parseSubprotocols req.secWebsocketProtocol
      = ((h.splitOn ",").map String.trim).filter (fun t => t ≠ "") := by
    unfold parseSubprotocols
    rw [hh]
    apply List.filter_congr
    intro t _
    simp only [decide_eq_decide]
    exact not_congr (hlen0 t)
  refine ⟨hparse, ?_, ?_, ?_⟩
  · rw [hparse]
    exact List.filter_sublist _
  · rw [hparse]
    intro t ht
    simpa using (List.mem_filter.mp ht).2
  · intro hup hth
    simp [handler, hup, hth]

/-- C8 witness at header `"a, b"` over a websocket request. -/
theorem handler_subprotocol_negotiation_witness :
    handler [] ⟨some "a, b", some "websocket", false⟩
      = ([], .upgraded (parseSubprotocols (some "a, b")).head?
            (parseSubprotocols (some "a, b"))) :=
  (handler_subprotocol_negotiation [] ⟨some "a, b", some "websocket", false⟩
    "a, b" rfl).2.2.2 rfl rfl

/-- C3: observing the listener's completion with `shouldShutDown` false emits
the unexpected-termination error, and rebuilds the listener (emitting
`ServerStarted`) exactly when `keepAlive` is configured; after `shutdown()`
(which sets the flag before teardown) a later completion event emits nothing
and restarts nothing; `restart()` clears the flag, so keep-alive behaviour
resumes afterwards. -/
theorem lifecycle_keepalive_spec (keepAlive : Bool) (s : LifecycleState) :
    (s.shouldShutDown = false →
      (LcEmit.errorUnexpected ∈ (lcStep keepAlive s .finished).2 ∧
        ((lcStep keepAlive s .finished).1.running = true ↔ keepAlive = true) ∧
        (LcEmit.serverStarted ∈ (lcStep keepAlive s .finished).2 ↔ keepAlive = true))) ∧
    ((lcStep keepAlive (lcStep keepAlive s .shutdownCmd).1 .finished).2 = [] ∧
      (lcStep keepAlive (lcStep keepAlive s .shutdownCmd).1 .finished).1.running = false) ∧
    ((lcStep keepAlive s .restartCmd).1.shouldShutDown = false ∧
      LcEmit.serverStarted ∈ (lcStep true (lcStep keepAlive s .restartCmd).1 .finished).2) := by
  obtain ⟨sd, run⟩ := s
  cases keepAlive <;> cases sd <;> cases run <;> decide

/-- C3 witness: a running keep-alive server with the flag clear. -/
theorem lifecycle_keepalive_spec_witness :
    LcEmit.errorUnexpected ∈ (lcStep true ⟨false, true⟩ .finished).2 ∧
    ((lcStep true (⟨false, true⟩ : LifecycleState) .finished).1.running = true ↔
      true = true) ∧
    (LcEmit.serverStarted ∈ (lcStep true (⟨false, true⟩ : LifecycleState) .finished).2 ↔
      true = true) :=
  (lifecycle_keepalive_spec true ⟨false, true⟩).1 rfl

/-! ### Session-id uniqueness machinery (C9) -/

/-- The invariant the open/close trace preserves: the issued list is exactly
the prefix of the UUID stream drawn so far, every live key was issued, and
the live keys are pairwise distinct. -/
def RegInv (uuid : Nat → String) (st : ServerState) : Prop :=
  st.issued = (List.range st.drawn).map uuid ∧
  (∀ id ∈ keys st.sessions, id ∈ st.issued) ∧
  (keys st.sessions).Nodup

/-- Keys distribute over registry concatenation. -/
theorem keys_append (r1 r2 : Registry) : keys (r1 ++ r2) = keys r1 ++ keys r2 :=
  List.map_append _ _ _

/-- One step preserves the invariant, provided the UUID stream never
repeats. -/
theorem regInv_step (uuid : Nat → String) (hinj : Function.Injective uuid)
    (st : ServerState) (hI : RegInv uuid st) (e : TraceEvent) :
    RegInv uuid (traceStep uuid st e) := by
  obtain ⟨hiss, hsub, hnd⟩ := hI
  cases e with
  | openConn ready subs =>
    have hfresh : uuid st.drawn ∉ st.issued := by
      rw [hiss]
      intro hmem
      rcases List.mem_map.mp hmem with ⟨j, hj, hje⟩
      rw [← hinj hje] at hj
      exact Nat.lt_irrefl _ (List.mem_range.mp hj)
    have hnotkey : uuid st.drawn ∉ keys st.sessions := fun hk => hfresh (hsub _ hk)
    have hlookup : lookup st.sessions (uuid st.drawn) = none :=
      (lookup_eq_none_iff _ _).mpr hnotkey
    simp only [traceStep, insertSession, hlookup, Option.isSome_none,
      Bool.false_eq_true, if_false]
    refine ⟨?_, ?_, ?_⟩
    · simp [RegInv, hiss, List.range_succ]
    · intro id hid
      rw [keys_append] at hid
      rcases List.mem_append.mp hid with hid | hid
      · exact List.mem_append.mpr (Or.inl (hsub id hid))
      · simp only [keys, List.map_cons, List.map_nil] at hid
        exact List.mem_append.mpr (Or.inr (by simpa using hid))
    · rw [keys_append]
      rw [List.nodup_append]
      refine ⟨hnd, by simp [keys], ?_⟩
      intro a ha hb
      simp only [keys, List.map_cons, List.map_nil, List.mem_singleton] at hb
      rw [hb] at ha
      exact hnotkey ha
  | closeConn id =>
    refine ⟨hiss, ?_, ?_⟩
    · intro i hk
      simp only [traceStep] at hk
      rw [keys_removeSession] at hk
      exact hsub i (List.mem_of_mem_filter hk)
    · simp only [traceStep]
      rw [keys_removeSession]
      exact hnd.filter _

/-- A whole trace preserves the invariant. -/
theorem regInv_run (uuid : Nat → String) (hinj : Function.Injective uuid)
    (tr : List TraceEvent) (st : ServerState) (hI : RegInv uuid st) :
    RegInv uuid (runTrace uuid st tr) := by
  induction tr generalizing st with
  | nil => exact hI
  | cons e es ih => exact ih _ (regInv_step uuid hinj st hI e)

/-- A concrete injective id stream usable as a stand-in for
`crypto.randomUUID`. -/
def uuidStream (n : Nat) : String := String.mk (List.replicate n 'a')

/-- C9: embedding `crypto.randomUUID` as an injective stream of identifiers
(the idealisation of a 128-bit random UUID source, per the spec's
"collision-negligible"), every trace of opens and closes from the fresh
registry keeps the issued identifiers pairwise distinct, keeps the live
session keys pairwise distinct, and only ever maps issued identifiers. -/
theorem sessionIds_unique (uuid : Nat → String) (hinj : Function.Injective uuid)
    (tr : List TraceEvent) :
    (runTrace uuid initialState tr).issued.Nodup ∧
    (keys (runTrace uuid initialState tr).sessions).Nodup ∧
    (∀ id ∈ keys (runTrace uuid initialState tr).sessions,
      id ∈ (runTrace uuid initialState tr).issued) := by
  have hI : RegInv uuid (runTrace uuid initialState tr) :=
    regInv_run uuid hinj tr initialState
      ⟨rfl, by simp [initialState, keys], by simp [initialState, keys]⟩
  obtain ⟨hiss, hsub, hnd⟩ := hI
  refine ⟨?_, hnd, hsub⟩
  rw [hiss]
  exact (List.nodup_range _).map hinj

/-- C9 witness: a concrete open/close/open trace under the concrete injective
stream. -/
theorem sessionIds_unique_witness :
    (runTrace uuidStream initialState
      [.openConn 1 ["chatv1"], .closeConn (uuidStream 0), .openConn 1 []]).issued.Nodup ∧
    (keys (runTrace uuidStream initialState
      [.openConn 1 ["chatv1"], .closeConn (uuidStream 0), .openConn 1 []]).sessions).Nodup ∧
    (∀ id ∈ keys (runTrace uuidStream initialState
        [.openConn 1 ["chatv1"], .closeConn (uuidStream 0), .openConn 1 []]).sessions,
      id ∈ (runTrace uuidStream initialState
        [.openConn 1 ["chatv1"], .closeConn (uuidStream 0), .openConn 1 []]).issued) :=
  sessionIds_unique uuidStream
    (fun a b hab => by
      have h2 := congrArg String.length hab
      have h3 : ∀ n : Nat, (uuidStream n).length = n := fun n => by
        simp [uuidStream, String.length]
      rw [h3, h3] at h2
      exact h2)
    [.openConn 1 ["chatv1"], .closeConn (uuidStream 0), .openConn 1 []]

end WSServer
